import Mathlib

/-!
Verification of the `intentrng` statistical engine (src/src/App.jsx and the
embedded earlier variant in src/vite.config.js).

Modelling conventions:
- JavaScript numbers are modelled as real numbers (`ℝ`) for the algebraic
  statistics formulas (`normalCdf`, `zAndP`, `diffTest`), where the only
  content of the claims is the shape of the expressions.
- For the claims about IEEE special values (division by zero, NaN, Infinity)
  we use a dedicated type `JsNum` = ℝ ∪ \x7bNaN, +∞, −∞\x7d with the
  JavaScript semantics of the arithmetic operators on those special values
  (finite arithmetic is idealised as exact real arithmetic).
- The buffered random bit source is modelled as an explicit state machine
  over an abstract byte stream (index ↦ byte), one stream for the secure
  entropy source and one for the `Math.random` fallback.
- The async session loop is modelled as a fuel-indexed recursion; the
  cancellation flag, which can be flipped concurrently at the `await` points,
  is modelled as a function from the trial index of a checkpoint to the value
  the flag is observed to have there.  Thrown errors are `Except.error`.
-/

/-- SessionResult record from App.jsx line 247:
`\x7b kind, n, hits, rate: hits / n, z, p \x7d`. -/
structure SessionResult where
  kind : String
  n : ℕ
  hits : ℕ
  rate : ℝ
  z : ℝ
  p : ℝ

/-- Return record of `diffTest` (App.jsx line 230): `\x7b diff, z, p \x7d`. -/
structure ComparisonResult where
  diff : ℝ
  z : ℝ
  p : ℝ

/-- App.jsx lines 283–294, `normalCdf(x)`: the Abramowitz & Stegun 7.1.26
approximation, translated literally (JS `**` is `^`). -/
noncomputable def normalCdf (x : ℝ) : ℝ :=
  let t := 1 / (1 + 0.2316419 * x)
  let d := Real.exp (-x * x / 2) / Real.sqrt (2 * Real.pi)
  let poly :=
    0.31938153 * t - 0.356563782 * t ^ 2 + 1.781477937 * t ^ 3
      - 1.821255978 * t ^ 4 + 1.330274429 * t ^ 5
  1 - d * poly

/-- App.jsx lines 276–280, `zAndP(hits, n)`; returns the pair `(z, p)`. -/
noncomputable def zAndP (hits n : ℝ) : ℝ × ℝ :=
  let z := (hits - 0.5 * n) / Real.sqrt (n * 0.25)
  let p := 2 * (1 - normalCdf |z|)
  (z, p)

/-- App.jsx lines 224–231, `diffTest(a, b)`: difference-in-proportions z-test. -/
noncomputable def diffTest (a b : SessionResult) : ComparisonResult :=
  let diff := a.rate - b.rate
  let se := Real.sqrt (a.rate * (1 - a.rate) / a.n + b.rate * (1 - b.rate) / b.n)
  let z := diff / se
  let p := 2 * (1 - normalCdf |z|)
  ⟨diff, z, p⟩

/-- Spec-side rendering of the §4.2 formula, written exactly as the spec text
states it (t = 1/(1 + 0.2316419·x); d = exp(−x²/2)/√(2π); poly; Φ = 1 − d·poly),
to be compared with the code-side `normalCdf`. -/
noncomputable def normalCdfSpec (x : ℝ) : ℝ :=
  let t := 1 / (1 + 0.2316419 * x)
  let d := Real.exp (-(x ^ 2) / 2) / Real.sqrt (2 * Real.pi)
  let poly :=
    0.31938153 * t - 0.356563782 * t ^ 2 + 1.781477937 * t ^ 3
      - 1.821255978 * t ^ 4 + 1.330274429 * t ^ 5
  1 - d * poly

/-- C1: for every hits and every n > 0, the one-sample test returns
z = (hits − 0.5·n)/√(0.25·n) and p = 2·(1 − Φ(|z|)) where Φ is the program's
normal-CDF approximation (two-tailed test under the null rate = 0.5). -/
theorem zAndP_one_sample (hits n : ℝ) (hn : 0 < n) :
    (zAndP hits n).1 = (hits - 0.5 * n) / Real.sqrt (0.25 * n) ∧
    (zAndP hits n).2 = 2 * (1 - normalCdf |(zAndP hits n).1|) := by
  refine ⟨?_, rfl⟩
  show (hits - 0.5 * n) / Real.sqrt (n * 0.25) = _
  rw [mul_comm n 0.25]

/-- Witness for C1 at hits = 1, n = 4. -/
theorem zAndP_one_sample_witness :
    (zAndP 1 4).1 = ((1 : ℝ) - 0.5 * 4) / Real.sqrt (0.25 * 4) ∧
    (zAndP 1 4).2 = 2 * (1 - normalCdf |(zAndP 1 4).1|) :=
  zAndP_one_sample 1 4 (by norm_num)

/-- C2: for every x ≥ 0 the normal-CDF approximation returns exactly the
Abramowitz & Stegun 7.1.26 expression of the spec (as rendered by
`normalCdfSpec`), and its callers `zAndP` and `diffTest` invoke it only on the
non-negative argument |z|. -/
theorem normalCdf_spec_and_callers (x : ℝ) (hx : 0 ≤ x) :
    normalCdf x = normalCdfSpec x ∧
    (∀ hits n : ℝ,
      (zAndP hits n).2 = 2 * (1 - normalCdf |(zAndP hits n).1|) ∧
        0 ≤ |(zAndP hits n).1|) ∧
    (∀ a b : SessionResult,
      (diffTest a b).p = 2 * (1 - normalCdf |(diffTest a b).z|) ∧
        0 ≤ |(diffTest a b).z|) := by
  refine ⟨?_, fun hits n => ⟨rfl, abs_nonneg _⟩, fun a b => ⟨rfl, abs_nonneg _⟩⟩
  show 1 - Real.exp (-x * x / 2) / Real.sqrt (2 * Real.pi) * _ = _
  show _ = 1 - Real.exp (-(x ^ 2) / 2) / Real.sqrt (2 * Real.pi) * _
  rw [show (-(x ^ 2) / 2 : ℝ) = -x * x / 2 by ring]

/-- Witness for C2 at x = 1. -/
theorem normalCdf_spec_and_callers_witness :
    normalCdf 1 = normalCdfSpec 1 ∧
    (∀ hits n : ℝ,
      (zAndP hits n).2 = 2 * (1 - normalCdf |(zAndP hits n).1|) ∧
        0 ≤ |(zAndP hits n).1|) ∧
    (∀ a b : SessionResult,
      (diffTest a b).p = 2 * (1 - normalCdf |(diffTest a b).z|) ∧
        0 ≤ |(diffTest a b).z|) :=
  normalCdf_spec_and_callers 1 (by norm_num)

/-- C3: for every pair of session results with positive n, the two-sample test
returns diff = a.rate − b.rate exactly,
z = diff / √(a.rate·(1−a.rate)/a.n + b.rate·(1−b.rate)/b.n), and
p = 2·(1 − Φ(|z|)). -/
theorem diffTest_two_sample (a b : SessionResult) (ha : 0 < a.n) (hb : 0 < b.n) :
    (diffTest a b).diff = a.rate - b.rate ∧
    (diffTest a b).z = (a.rate - b.rate) /
      Real.sqrt (a.rate * (1 - a.rate) / a.n + b.rate * (1 - b.rate) / b.n) ∧
    (diffTest a b).p = 2 * (1 - normalCdf |(diffTest a b).z|) :=
  ⟨rfl, rfl, rfl⟩

/-- Witness for C3 on two concrete session results. -/
theorem diffTest_two_sample_witness :
    (diffTest ⟨"Focus", 1000, 540, 0.54, 0, 1⟩ ⟨"Control", 1000, 500, 0.5, 0, 1⟩).diff
        = (0.54 : ℝ) - 0.5 ∧
    (diffTest ⟨"Focus", 1000, 540, 0.54, 0, 1⟩ ⟨"Control", 1000, 500, 0.5, 0, 1⟩).z
        = ((0.54 : ℝ) - 0.5) /
          Real.sqrt ((0.54 : ℝ) * (1 - 0.54) / (1000 : ℕ) + (0.5 : ℝ) * (1 - 0.5) / (1000 : ℕ)) ∧
    (diffTest ⟨"Focus", 1000, 540, 0.54, 0, 1⟩ ⟨"Control", 1000, 500, 0.5, 0, 1⟩).p
        = 2 * (1 - normalCdf
            |(diffTest ⟨"Focus", 1000, 540, 0.54, 0, 1⟩ ⟨"Control", 1000, 500, 0.5, 0, 1⟩).z|) :=
  diffTest_two_sample _ _ (by decide) (by decide)

/-- Closure state of `makeBufferedRng` (App.jsx lines 255–274): the byte
buffer `buf`, the read cursor `idx`, and `pos`, the total number of bytes the
underlying entropy source has delivered so far (the source is abstracted as a
stream of bytes indexed by delivery order). -/
structure RngState where
  pos : ℕ
  buf : List ℕ
  idx : ℕ

/-- App.jsx lines 258–267, `refill()`: allocate a chunk of `c` bytes, fill it
from `crypto.getRandomValues` when available (`ok = true`) and otherwise from
the `Math.random` fallback, and reset the cursor to 0.  `sec` and `insec` are
the two byte streams. -/
def refill (c : ℕ) (ok : Bool) (sec insec : ℕ → ℕ) (s : RngState) : RngState :=
  if ok then
    ⟨s.pos + c, (List.range c).map (fun j => sec (s.pos + j)), 0⟩
  else
    ⟨s.pos + c, (List.range c).map (fun j => insec (s.pos + j)), 0⟩

/-- App.jsx line 268: state right after `makeBufferedRng` runs its initial
`refill()` (starting from the empty buffer and cursor 0). -/
def initRng (c : ℕ) (ok : Bool) (sec insec : ℕ → ℕ) : RngState :=
  refill c ok sec insec ⟨0, [], 0⟩

/-- App.jsx lines 269–273, `flipBit()`: refill when the cursor has reached the
end of the buffer, then return the least-significant bit (`& 1`) of the byte
at the cursor and advance the cursor by one. -/
def flipBit (c : ℕ) (ok : Bool) (sec insec : ℕ → ℕ) (s : RngState) : ℕ × RngState :=
  let s' := if s.buf.length ≤ s.idx then refill c ok sec insec s else s
  (s'.buf.getD s'.idx 0 % 2, ⟨s'.pos, s'.buf, s'.idx + 1⟩)

/-- State of the buffered rng after `k` calls to `flipBit`. -/
def rngStateAfter (c : ℕ) (ok : Bool) (sec insec : ℕ → ℕ) : ℕ → RngState
  | 0 => initRng c ok sec insec
  | k + 1 => (flipBit c ok sec insec (rngStateAfter c ok sec insec k)).2

/-- Value returned by the (k+1)-st call to `flipBit` (0-indexed `k`). -/
def bufferedBit (c : ℕ) (ok : Bool) (sec insec : ℕ → ℕ) (k : ℕ) : ℕ :=
  (flipBit c ok sec insec (rngStateAfter c ok sec insec k)).1

/-- Byte stream actually consumed, as selected by the crypto-availability
test inside `refill`. -/
def usedStream (ok : Bool) (sec insec : ℕ → ℕ) : ℕ → ℕ :=
  fun m => if ok then sec m else insec m

lemma refill_eq (c : ℕ) (ok : Bool) (sec insec : ℕ → ℕ) (s : RngState) :
    refill c ok sec insec s =
      ⟨s.pos + c, (List.range c).map (fun j => usedStream ok sec insec (s.pos + j)), 0⟩ := by
  cases ok <;> simp [refill, usedStream]

/-- Invariant tying the rng state after `k` calls to the byte stream: the
buffer is the chunk of `c` stream bytes starting at `base`, the cursor is in
bounds, and `base + idx = k` bytes have been consumed in total. -/
def RngInv (c : ℕ) (used : ℕ → ℕ) (k : ℕ) (s : RngState) : Prop :=
  ∃ base, s.pos = base + c ∧
    s.buf = (List.range c).map (fun j => used (base + j)) ∧
    s.idx ≤ c ∧ base + s.idx = k

lemma getD_range_map (f : ℕ → ℕ) (c i : ℕ) (h : i < c) :
    ((List.range c).map f).getD i 0 = f i := by
  rw [List.getD_eq_getElem?_getD]
  simp [List.getElem?_map, List.getElem?_range, h]

lemma flipBit_step (c : ℕ) (hc : 0 < c) (ok : Bool) (sec insec : ℕ → ℕ)
    (k : ℕ) (s : RngState) (h : RngInv c (usedStream ok sec insec) k s) :
    (flipBit c ok sec insec s).1 = usedStream ok sec insec k % 2 ∧
    RngInv c (usedStream ok sec insec) (k + 1) (flipBit c ok sec insec s).2 := by
  obtain ⟨base, hpos, hbuf, hidx, hk⟩ := h
  have hlen : s.buf.length = c := by rw [hbuf]; simp
  by_cases hlt : s.idx < c
  · have hcond : ¬ s.buf.length ≤ s.idx := by omega
    constructor
    · show (if s.buf.length ≤ s.idx then refill c ok sec insec s else s).buf.getD
        (if s.buf.length ≤ s.idx then refill c ok sec insec s else s).idx 0 % 2 = _
      rw [if_neg hcond, hbuf, getD_range_map _ _ _ hlt, hk]
    · show RngInv _ _ _
        ⟨(if s.buf.length ≤ s.idx then refill c ok sec insec s else s).pos,
         (if s.buf.length ≤ s.idx then refill c ok sec insec s else s).buf,
         (if s.buf.length ≤ s.idx then refill c ok sec insec s else s).idx + 1⟩
      rw [if_neg hcond]
      refine ⟨base, hpos, hbuf, ?_, ?_⟩
      · show s.idx + 1 ≤ c
        omega
      · show base + (s.idx + 1) = k + 1
        omega
  · have hidxc : s.idx = c := by omega
    have hcond : s.buf.length ≤ s.idx := by omega
    constructor
    · show (if s.buf.length ≤ s.idx then refill c ok sec insec s else s).buf.getD
        (if s.buf.length ≤ s.idx then refill c ok sec insec s else s).idx 0 % 2 = _
      rw [if_pos hcond, refill_eq]
      show ((List.range c).map (fun j => usedStream ok sec insec (s.pos + j))).getD 0 0 % 2 = _
      rw [getD_range_map _ _ _ hc, hpos]
      have : base + c + 0 = k := by omega
      rw [this]
    · show RngInv _ _ _
        ⟨(if s.buf.length ≤ s.idx then refill c ok sec insec s else s).pos,
         (if s.buf.length ≤ s.idx then refill c ok sec insec s else s).buf,
         (if s.buf.length ≤ s.idx then refill c ok sec insec s else s).idx + 1⟩
      rw [if_pos hcond, refill_eq]
      refine ⟨base + c, ?_, ?_, ?_, ?_⟩
      · show s.pos + c = base + c + c
        omega
      · show (List.range c).map (fun j => usedStream ok sec insec (s.pos + j)) =
          (List.range c).map (fun j => usedStream ok sec insec (base + c + j))
        rw [hpos]
      · show 0 + 1 ≤ c
        omega
      · show base + c + (0 + 1) = k + 1
        omega

lemma rngInv_after (c : ℕ) (hc : 0 < c) (ok : Bool) (sec insec : ℕ → ℕ) :
    ∀ k, RngInv c (usedStream ok sec insec) k (rngStateAfter c ok sec insec k) := by
  intro k
  induction k with
  | zero =>
    show RngInv _ _ _ (initRng c ok sec insec)
    unfold initRng
    rw [refill_eq]
    exact ⟨0, by simp, by simp, Nat.zero_le _, by simp⟩
  | succ k ih =>
    exact (flipBit_step c hc ok sec insec k _ ih).2

lemma bufferedBit_eq (c : ℕ) (hc : 0 < c) (ok : Bool) (sec insec : ℕ → ℕ) (k : ℕ) :
    bufferedBit c ok sec insec k = usedStream ok sec insec k % 2 :=
  (flipBit_step c hc ok sec insec k _ (rngInv_after c hc ok sec insec k)).1

/-- C4: for every positive chunk size (default 65536), every call to the
buffered bit source returns the least-significant bit of the next unread byte
of the underlying entropy stream — the (k+1)-st call returns the low bit of
stream byte k — so the cursor advances one byte per call, each refill installs
a fresh chunk of `c` bytes (hence `c` bits between refills), and no buffer
position is ever read twice before a refill: no bit is ever reused. -/
theorem bufferedRng_lsb_no_reuse (c : ℕ) (hc : 0 < c) (ok : Bool)
    (sec insec : ℕ → ℕ) (k : ℕ) :
    bufferedBit c ok sec insec k = (if ok then sec k else insec k) % 2 ∧
    (rngStateAfter c ok sec insec k).buf.length = c := by
  refine ⟨bufferedBit_eq c hc ok sec insec k, ?_⟩
  obtain ⟨base, hpos, hbuf, hidx, hk⟩ := rngInv_after c hc ok sec insec k
  rw [hbuf]; simp

/-- Witness for C4: chunk size 2, identity byte stream, sixth call returns
bit 5 % 2 = 1. -/
theorem bufferedRng_lsb_no_reuse_witness :
    bufferedBit 2 true (fun m => m) (fun m => m) 5 = 1 ∧
    (rngStateAfter 2 true (fun m => m) (fun m => m) 5).buf.length = 2 :=
  bufferedRng_lsb_no_reuse 2 (by decide) true (fun m => m) (fun m => m) 5

/-- C8 counterexample: the substitution of the non-secure fallback is NOT
observable by the caller — with the same underlying bytes, the secure path
and the degraded path produce identical outputs (the closure returns only the
bit; `refill` writes only `buf` and `idx` and emits no log or marker), so the
two paths are indistinguishable, refuting the claim as stated. -/
theorem fallback_silent_counterexample :
    (List.range 6).map (bufferedBit 2 true (fun m => m * 7 + 3) (fun m => m * 7 + 3)) =
      (List.range 6).map (bufferedBit 2 false (fun m => m * 7 + 3) (fun m => m * 7 + 3)) := by
  decide

/-- C8 amended: when the secure entropy source is unavailable the source
silently substitutes the `Math.random` stream — the caller receives exactly
the low bits of the substitute's bytes, with no observable marker, and the
degraded path's output is identical to what the secure path would produce
from the same bytes (the design notes record this silence as an open
question). -/
theorem fallback_substitution_silent (c : ℕ) (hc : 0 < c)
    (sec insec : ℕ → ℕ) (k : ℕ) :
    bufferedBit c false sec insec k = insec k % 2 ∧
    bufferedBit c false sec insec k = bufferedBit c true insec sec k := by
  have h1 := bufferedBit_eq c hc false sec insec k
  have h2 := bufferedBit_eq c hc true insec sec k
  simp only [usedStream] at h1 h2
  refine ⟨by simpa using h1, ?_⟩
  rw [h1, h2]
  simp

/-- Witness for the amended C8 at chunk size 2. -/
theorem fallback_substitution_silent_witness :
    bufferedBit 2 false (fun m => m + 4) (fun m => m + 9) 3 = (3 + 9) % 2 ∧
    bufferedBit 2 false (fun m => m + 4) (fun m => m + 9) 3 =
      bufferedBit 2 true (fun m => m + 9) (fun m => m + 4) 3 :=
  fallback_substitution_silent 2 (by decide) (fun m => m + 4) (fun m => m + 9) 3

/-- App.jsx lines 236–245, the trial loop of `runSession`: fuel-indexed
recursion over the remaining trials; `i` is the current trial index, `hits`
the tally so far.  Each iteration adds the next bit; at a checkpoint
(`i % 200 = 0` or `i = n`) the loop reports progress, yields, and then throws
`"Cancelled"` if the flag is observed true.  `cancelled i` is the value the
shared flag is observed to have at the checkpoint after trial `i` (it may be
set concurrently while the loop is suspended at the yield). -/
def sessionGo (n : ℕ) (bit : ℕ → ℕ) (cancelled : ℕ → Bool) :
    ℕ → ℕ → ℕ → Except String ℕ
  | 0, _, hits => Except.ok hits
  | fuel + 1, i, hits =>
    let h' := hits + bit i
    if i % 200 = 0 ∨ i = n then
      if cancelled i then Except.error "Cancelled"
      else sessionGo n bit cancelled fuel (i + 1) h'
    else sessionGo n bit cancelled fuel (i + 1) h'

/-- Hit tally of a session of `n` trials (the loop runs `i = 1..n`). -/
def runSessionHits (n : ℕ) (bit : ℕ → ℕ) (cancelled : ℕ → Bool) : Except String ℕ :=
  sessionGo n bit cancelled n 1 0

/-- App.jsx lines 233–248, `runSession`: run the trial loop, then build the
SessionResult `\x7b kind, n, hits, rate: hits/n, z, p \x7d` from `zAndP` on
natural completion; a thrown `"Cancelled"` propagates as `Except.error`. -/
noncomputable def runSession (kind : String) (n : ℕ) (bit : ℕ → ℕ)
    (cancelled : ℕ → Bool) : Except String SessionResult :=
  (runSessionHits n bit cancelled).map fun hits =>
    ⟨kind, n, hits, (hits : ℝ) / n, (zAndP hits n).1, (zAndP hits n).2⟩

lemma sessionGo_cancelled (n : ℕ) (bit : ℕ → ℕ) (cancelled : ℕ → Bool) :
    ∀ fuel i hits, i + fuel = n + 1 →
    (∃ j, i ≤ j ∧ j ≤ n ∧ (j % 200 = 0 ∨ j = n) ∧ cancelled j = true) →
    sessionGo n bit cancelled fuel i hits = Except.error "Cancelled" := by
  intro fuel
  induction fuel with
  | zero =>
    intro i hits hin hex
    obtain ⟨j, hij, hjn, _, _⟩ := hex
    omega
  | succ fuel ih =>
    intro i hits hin hex
    obtain ⟨j, hij, hjn, hchk, hcan⟩ := hex
    simp only [sessionGo]
    by_cases hchki : i % 200 = 0 ∨ i = n
    · rw [if_pos hchki]
      by_cases hci : cancelled i = true
      · rw [if_pos hci]
      · rw [if_neg hci]
        have hji : j ≠ i := by intro e; exact hci (e ▸ hcan)
        exact ih (i + 1) _ (by omega) ⟨j, by omega, hjn, hchk, hcan⟩
    · rw [if_neg hchki]
      have hji : j ≠ i := by intro e; subst e; exact hchki hchk
      exact ih (i + 1) _ (by omega) ⟨j, by omega, hjn, hchk, hcan⟩

/-- C5: for every run of n trials, if the cancellation flag is observed true
at some checkpoint (checkpoints are every multiple of the 200-trial throttling
interval, and unconditionally trial n), the run signals the "Cancelled"
condition (a thrown error, hence terminating at that checkpoint) instead of
returning a SessionResult; the partial tally is discarded with it. -/
theorem runSession_cancel_aborts (kind : String) (n : ℕ) (bit : ℕ → ℕ)
    (cancelled : ℕ → Bool) (j : ℕ) (h1 : 1 ≤ j) (h2 : j ≤ n)
    (hchk : j % 200 = 0 ∨ j = n) (hcan : cancelled j = true) :
    runSession kind n bit cancelled = Except.error "Cancelled" := by
  unfold runSession runSessionHits
  rw [sessionGo_cancelled n bit cancelled n 1 0 (by omega) ⟨j, h1, h2, hchk, hcan⟩]
  rfl

/-- Witness for C5: a 50-trial run whose flag is already set is cancelled at
the unconditional checkpoint i = n = 50. -/
theorem runSession_cancel_aborts_witness :
    runSession "Focus" 50 (fun _ => 0) (fun _ => true) = Except.error "Cancelled" :=
  runSession_cancel_aborts "Focus" 50 (fun _ => 0) (fun _ => true) 50
    (by decide) (by decide) (by decide) (by decide)

/-- JavaScript number with its IEEE special values: NaN, +Infinity,
−Infinity, or a finite value (finite arithmetic idealised as exact reals).
Used for the claims about the degenerate (division-by-zero) paths and for the
`n | 0` coercion. -/
inductive JsNum where
  | nan : JsNum
  | inf : JsNum
  | neginf : JsNum
  | num : ℝ → JsNum

/-- JS `+` on special values (NaN propagates; ∞ + (−∞) = NaN). -/
noncomputable def jsAdd : JsNum → JsNum → JsNum
  | .nan, _ => .nan
  | _, .nan => .nan
  | .inf, .neginf => .nan
  | .neginf, .inf => .nan
  | .inf, _ => .inf
  | _, .inf => .inf
  | .neginf, _ => .neginf
  | _, .neginf => .neginf
  | .num a, .num b => .num (a + b)

/-- JS `-` on special values. -/
noncomputable def jsSub : JsNum → JsNum → JsNum
  | .nan, _ => .nan
  | _, .nan => .nan
  | .inf, .inf => .nan
  | .neginf, .neginf => .nan
  | .inf, _ => .inf
  | .neginf, _ => .neginf
  | _, .inf => .neginf
  | _, .neginf => .inf
  | .num a, .num b => .num (a - b)

/-- JS unary minus. -/
noncomputable def jsNeg : JsNum → JsNum
  | .nan => .nan
  | .inf => .neginf
  | .neginf => .inf
  | .num a => .num (-a)

/-- JS `*` on special values (∞ · 0 = NaN, signs respected). -/
noncomputable def jsMul : JsNum → JsNum → JsNum
  | .nan, _ => .nan
  | _, .nan => .nan
  | .inf, .inf => .inf
  | .inf, .neginf => .neginf
  | .neginf, .inf => .neginf
  | .neginf, .neginf => .inf
  | .inf, .num b => if b = 0 then .nan else if 0 < b then .inf else .neginf
  | .num a, .inf => if a = 0 then .nan else if 0 < a then .inf else .neginf
  | .neginf, .num b => if b = 0 then .nan else if 0 < b then .neginf else .inf
  | .num a, .neginf => if a = 0 then .nan else if 0 < a then .neginf else .inf
  | .num a, .num b => .num (a * b)

/-- JS `/` on special values (x/0 = ±∞ for x ≠ 0, 0/0 = NaN, x/∞ = 0,
∞/∞ = NaN). -/
noncomputable def jsDiv : JsNum → JsNum → JsNum
  | .nan, _ => .nan
  | _, .nan => .nan
  | .inf, .inf => .nan
  | .inf, .neginf => .nan
  | .neginf, .inf => .nan
  | .neginf, .neginf => .nan
  | .inf, .num b => if 0 ≤ b then .inf else .neginf
  | .neginf, .num b => if 0 ≤ b then .neginf else .inf
  | .num _, .inf => .num 0
  | .num _, .neginf => .num 0
  | .num a, .num b =>
    if b = 0 then (if a = 0 then .nan else if 0 < a then .inf else .neginf)
    else .num (a / b)

/-- JS `Math.sqrt` (negative → NaN). -/
noncomputable def jsSqrt : JsNum → JsNum
  | .nan => .nan
  | .inf => .inf
  | .neginf => .nan
  | .num a => if a < 0 then .nan else .num (Real.sqrt a)

/-- JS `Math.exp` (exp(−∞) = 0). -/
noncomputable def jsExp : JsNum → JsNum
  | .nan => .nan
  | .inf => .inf
  | .neginf => .num 0
  | .num a => .num (Real.exp a)

/-- JS `Math.abs`. -/
noncomputable def jsAbs : JsNum → JsNum
  | .nan => .nan
  | .inf => .inf
  | .neginf => .inf
  | .num a => .num |a|

/-- JS `**` with a natural-number exponent, as iterated multiplication. -/
noncomputable def jsPow (a : JsNum) : ℕ → JsNum
  | 0 => .num 1
  | k + 1 => jsMul (jsPow a k) a

/-- JS `isFinite` (App.jsx line 220): false exactly on NaN and ±Infinity. -/
def jsIsFinite : JsNum → Bool
  | .num _ => true
  | _ => false

/-- App.jsx lines 283–294 over `JsNum`: `normalCdf` as evaluated by the IEEE
semantics, for the arguments (NaN, ±∞) the degenerate two-sample path feeds
it. -/
noncomputable def normalCdfJs (x : JsNum) : JsNum :=
  let t := jsDiv (.num 1) (jsAdd (.num 1) (jsMul (.num 0.2316419) x))
  let d := jsDiv (jsExp (jsDiv (jsMul (jsNeg x) x) (.num 2)))
      (jsSqrt (jsMul (.num 2) (.num Real.pi)))
  let poly := jsAdd (jsSub (jsAdd (jsSub (jsMul (.num 0.31938153) t)
      (jsMul (.num 0.356563782) (jsPow t 2)))
      (jsMul (.num 1.781477937) (jsPow t 3)))
      (jsMul (.num 1.821255978) (jsPow t 4)))
      (jsMul (.num 1.330274429) (jsPow t 5))
  jsSub (.num 1) (jsMul d poly)

/-- App.jsx lines 224–231 over `JsNum`: `diffTest` as evaluated by the IEEE
semantics; arguments are the two results' `rate` and `n` fields; returns
(diff, z, p). -/
noncomputable def diffTestJs (aRate aN bRate bN : JsNum) : JsNum × JsNum × JsNum :=
  let diff := jsSub aRate bRate
  let se := jsSqrt (jsAdd (jsDiv (jsMul aRate (jsSub (.num 1) aRate)) aN)
      (jsDiv (jsMul bRate (jsSub (.num 1) bRate)) bN))
  let z := jsDiv diff se
  let p := jsMul (.num 2) (jsSub (.num 1) (normalCdfJs (jsAbs z)))
  (diff, z, p)

@[simp] lemma jsAdd_num_num (a b : ℝ) : jsAdd (.num a) (.num b) = .num (a + b) := rfl
@[simp] lemma jsAdd_num_inf (a : ℝ) : jsAdd (.num a) .inf = .inf := rfl
@[simp] lemma jsAdd_num_nan (a : ℝ) : jsAdd (.num a) .nan = .nan := rfl
@[simp] lemma jsSub_num_num (a b : ℝ) : jsSub (.num a) (.num b) = .num (a - b) := rfl
@[simp] lemma jsSub_num_nan (a : ℝ) : jsSub (.num a) .nan = .nan := rfl
@[simp] lemma jsMul_num_num (a b : ℝ) : jsMul (.num a) (.num b) = .num (a * b) := rfl
@[simp] lemma jsMul_num_nan (a : ℝ) : jsMul (.num a) .nan = .nan := rfl
@[simp] lemma jsMul_neginf_inf : jsMul .neginf .inf = .neginf := rfl
@[simp] lemma jsNeg_inf : jsNeg .inf = .neginf := rfl
@[simp] lemma jsNeg_nan : jsNeg .nan = .nan := rfl
@[simp] lemma jsDiv_num_inf (a : ℝ) : jsDiv (.num a) .inf = .num 0 := rfl
@[simp] lemma jsDiv_num_nan (a : ℝ) : jsDiv (.num a) .nan = .nan := rfl
@[simp] lemma jsDiv_nan (b : JsNum) : jsDiv .nan b = .nan := by cases b <;> rfl
@[simp] lemma jsExp_neginf : jsExp .neginf = .num 0 := rfl
@[simp] lemma jsExp_nan : jsExp .nan = .nan := rfl
@[simp] lemma jsAbs_nan : jsAbs .nan = .nan := rfl
@[simp] lemma jsAbs_inf : jsAbs .inf = .inf := rfl
@[simp] lemma jsAbs_neginf : jsAbs .neginf = .inf := rfl
@[simp] lemma jsIsFinite_num (a : ℝ) : jsIsFinite (.num a) = true := rfl
@[simp] lemma jsIsFinite_nan : jsIsFinite .nan = false := rfl
@[simp] lemma jsIsFinite_inf : jsIsFinite .inf = false := rfl
@[simp] lemma jsIsFinite_neginf : jsIsFinite .neginf = false := rfl

@[simp] lemma jsPow_num (a : ℝ) : ∀ k, jsPow (.num a) k = .num (a ^ k)
  | 0 => by
    show JsNum.num 1 = _
    rw [pow_zero]
  | k + 1 => by
    show jsMul (jsPow (.num a) k) (.num a) = _
    rw [jsPow_num a k, jsMul_num_num, pow_succ]

@[simp] lemma jsMul_num_inf_pos (a : ℝ) (h : 0 < a) : jsMul (.num a) .inf = .inf := by
  show (if a = 0 then JsNum.nan else if 0 < a then JsNum.inf else JsNum.neginf) = JsNum.inf
  rw [if_neg h.ne', if_pos h]

@[simp] lemma jsMul_num_nan_arg (a : ℝ) : jsMul .nan (.num a) = .nan := rfl

@[simp] lemma jsDiv_neginf_num_nonneg (b : ℝ) (h : 0 ≤ b) :
    jsDiv .neginf (.num b) = .neginf := by
  show (if 0 ≤ b then JsNum.neginf else JsNum.inf) = JsNum.neginf
  rw [if_pos h]

@[simp] lemma jsSqrt_num_nonneg (a : ℝ) (h : 0 ≤ a) :
    jsSqrt (.num a) = .num (Real.sqrt a) := by
  show (if a < 0 then JsNum.nan else JsNum.num (Real.sqrt a)) = _
  rw [if_neg (not_lt.mpr h)]

@[simp] lemma jsDiv_num_num_ne (a b : ℝ) (h : b ≠ 0) :
    jsDiv (.num a) (.num b) = .num (a / b) := by
  show (if b = 0 then _ else JsNum.num (a / b)) = _
  rw [if_neg h]

lemma jsDiv_num_zero (a : ℝ) :
    jsDiv (.num a) (.num 0) =
      if a = 0 then .nan else if 0 < a then .inf else .neginf := by
  show (if (0 : ℝ) = 0 then _ else _) = _
  rw [if_pos rfl]

@[simp] lemma jsAdd_nan (b : JsNum) : jsAdd .nan b = .nan := by cases b <;> rfl
@[simp] lemma jsSub_nan (b : JsNum) : jsSub .nan b = .nan := by cases b <;> rfl
@[simp] lemma jsMul_nan (b : JsNum) : jsMul .nan b = .nan := by cases b <;> rfl
@[simp] lemma jsMul_nan_right (a : JsNum) : jsMul a .nan = .nan := by cases a <;> rfl
@[simp] lemma jsPow_nan (k : ℕ) (hk : k ≠ 0) : jsPow .nan k = .nan := by
  cases k with
  | zero => exact absurd rfl hk
  | succ k => exact jsMul_nan_right _

lemma normalCdfJs_nan : normalCdfJs .nan = .nan := by
  simp only [normalCdfJs, jsMul_num_nan, jsAdd_num_nan, jsDiv_num_nan, jsNeg_nan,
    jsMul_nan, jsDiv_nan, jsExp_nan, jsPow_nan _ (by norm_num : (2 : ℕ) ≠ 0),
    jsPow_nan _ (by norm_num : (3 : ℕ) ≠ 0), jsPow_nan _ (by norm_num : (4 : ℕ) ≠ 0),
    jsPow_nan _ (by norm_num : (5 : ℕ) ≠ 0), jsSub_nan, jsAdd_nan, jsSub_num_nan]

lemma normalCdfJs_inf : normalCdfJs .inf = .num 1 := by
  have hc : (0 : ℝ) < 0.2316419 := by norm_num
  have h2pi : (0 : ℝ) ≤ 2 * Real.pi := by positivity
  have hs : Real.sqrt (2 * Real.pi) ≠ 0 :=
    (Real.sqrt_pos.mpr (by positivity)).ne'
  simp only [normalCdfJs, jsMul_num_inf_pos _ hc, jsAdd_num_inf, jsDiv_num_inf,
    jsNeg_inf, jsMul_neginf_inf, jsDiv_neginf_num_nonneg 2 (by norm_num),
    jsExp_neginf, jsMul_num_num, jsSqrt_num_nonneg _ h2pi,
    jsDiv_num_num_ne _ _ hs, jsPow_num, jsSub_num_num, jsAdd_num_num,
    JsNum.num.injEq]
  norm_num

lemma jsDiv_zero_zero : jsDiv (.num 0) (.num 0) = .nan := by
  rw [jsDiv_num_zero, if_pos rfl]

lemma jsDiv_num_zero_pos (a : ℝ) (h : 0 < a) : jsDiv (.num a) (.num 0) = .inf := by
  rw [jsDiv_num_zero, if_neg h.ne', if_pos h]

lemma jsDiv_num_zero_neg (a : ℝ) (h : a < 0) : jsDiv (.num a) (.num 0) = .neginf := by
  rw [jsDiv_num_zero, if_neg (ne_of_lt h), if_neg (not_lt.mpr h.le)]

lemma diffTestJs_equal_rates (r na nb : ℝ) (hr : r * (1 - r) = 0)
    (ha : na ≠ 0) (hb : nb ≠ 0) :
    diffTestJs (.num r) (.num na) (.num r) (.num nb) = (.num 0, .nan, .nan) := by
  simp only [diffTestJs, jsSub_num_num, jsMul_num_num, hr, sub_self,
    jsDiv_num_num_ne _ _ ha, jsDiv_num_num_ne _ _ hb, zero_div, jsAdd_num_num,
    add_zero, jsSqrt_num_nonneg 0 le_rfl, Real.sqrt_zero, jsDiv_zero_zero,
    jsAbs_nan, normalCdfJs_nan, jsSub_num_nan, jsMul_num_nan]

lemma diffTestJs_mixed_one_zero (na nb : ℝ) (ha : na ≠ 0) (hb : nb ≠ 0) :
    diffTestJs (.num 1) (.num na) (.num 0) (.num nb) = (.num 1, .inf, .num 0) := by
  simp only [diffTestJs, jsSub_num_num, jsMul_num_num, sub_self, sub_zero,
    mul_zero, zero_mul, jsDiv_num_num_ne _ _ ha, jsDiv_num_num_ne _ _ hb,
    zero_div, jsAdd_num_num, add_zero, jsSqrt_num_nonneg 0 le_rfl,
    Real.sqrt_zero, jsDiv_num_zero_pos 1 (by norm_num), jsAbs_inf,
    normalCdfJs_inf]

lemma diffTestJs_mixed_zero_one (na nb : ℝ) (ha : na ≠ 0) (hb : nb ≠ 0) :
    diffTestJs (.num 0) (.num na) (.num 1) (.num nb) = (.num (-1), .neginf, .num 0) := by
  simp only [diffTestJs, jsSub_num_num, jsMul_num_num, sub_self, sub_zero,
    zero_sub, mul_zero, zero_mul, jsDiv_num_num_ne _ _ ha,
    jsDiv_num_num_ne _ _ hb, zero_div, jsAdd_num_num, add_zero, zero_add,
    jsSqrt_num_nonneg 0 le_rfl, Real.sqrt_zero,
    jsDiv_num_zero_neg (-1) (by norm_num), jsAbs_neginf, normalCdfJs_inf]

/-- C7 counterexample: a pair of degenerate session results (rate 1 of n=1000
vs rate 0 of n=1000, so se = √(0 + 0) = 0) for which the code yields a
non-finite z = +∞ but a FINITE p: Φ(∞) evaluates to exactly 1 along the IEEE
path, so p = 2·(1 − 1) = 0, and `isFinite p` is true — refuting the claim that
every zero-variance pair yields a non-finite p. -/
theorem diffTest_degenerate_counterexample :
    (diffTestJs (.num 1) (.num 1000) (.num 0) (.num 1000)).2.1 = .inf ∧
    (diffTestJs (.num 1) (.num 1000) (.num 0) (.num 1000)).2.2 = .num 0 ∧
    jsIsFinite (diffTestJs (.num 1) (.num 1000) (.num 0) (.num 1000)).2.2 = true := by
  rw [diffTestJs_mixed_one_zero 1000 1000 (by norm_num) (by norm_num)]
  exact ⟨rfl, rfl, rfl⟩

/-- C7 amended: for session results with se = 0 (each rate exactly 0 or 1,
n ≠ 0) the two-sample test yields a NON-FINITE z in every case and never
throws; p is non-finite (NaN) exactly when the two rates are EQUAL (0/0 = NaN
propagates), while for one rate 1 and the other 0 the z is ±∞ and p is the
finite value 0. -/
theorem diffTest_degenerate (na nb : ℝ) (ha : na ≠ 0) (hb : nb ≠ 0) :
    (diffTestJs (.num 0) (.num na) (.num 0) (.num nb)).2.1 = .nan ∧
    (diffTestJs (.num 0) (.num na) (.num 0) (.num nb)).2.2 = .nan ∧
    (diffTestJs (.num 1) (.num na) (.num 1) (.num nb)).2.1 = .nan ∧
    (diffTestJs (.num 1) (.num na) (.num 1) (.num nb)).2.2 = .nan ∧
    (diffTestJs (.num 1) (.num na) (.num 0) (.num nb)).2.1 = .inf ∧
    (diffTestJs (.num 1) (.num na) (.num 0) (.num nb)).2.2 = .num 0 ∧
    (diffTestJs (.num 0) (.num na) (.num 1) (.num nb)).2.1 = .neginf ∧
    (diffTestJs (.num 0) (.num na) (.num 1) (.num nb)).2.2 = .num 0 ∧
    jsIsFinite (diffTestJs (.num 0) (.num na) (.num 0) (.num nb)).2.1 = false ∧
    jsIsFinite (diffTestJs (.num 1) (.num na) (.num 0) (.num nb)).2.1 = false := by
  rw [diffTestJs_equal_rates 0 na nb (by norm_num) ha hb,
    diffTestJs_equal_rates 1 na nb (by norm_num) ha hb,
    diffTestJs_mixed_one_zero na nb ha hb,
    diffTestJs_mixed_zero_one na nb ha hb]
  exact ⟨rfl, rfl, rfl, rfl, rfl, rfl, rfl, rfl, rfl, rfl⟩

/-- Witness for the amended C7 at n = 1000 for both sessions. -/
theorem diffTest_degenerate_witness :
    (diffTestJs (.num 0) (.num 1000) (.num 0) (.num 1000)).2.1 = .nan ∧
    (diffTestJs (.num 0) (.num 1000) (.num 0) (.num 1000)).2.2 = .nan ∧
    (diffTestJs (.num 1) (.num 1000) (.num 1) (.num 1000)).2.1 = .nan ∧
    (diffTestJs (.num 1) (.num 1000) (.num 1) (.num 1000)).2.2 = .nan ∧
    (diffTestJs (.num 1) (.num 1000) (.num 0) (.num 1000)).2.1 = .inf ∧
    (diffTestJs (.num 1) (.num 1000) (.num 0) (.num 1000)).2.2 = .num 0 ∧
    (diffTestJs (.num 0) (.num 1000) (.num 1) (.num 1000)).2.1 = .neginf ∧
    (diffTestJs (.num 0) (.num 1000) (.num 1) (.num 1000)).2.2 = .num 0 ∧
    jsIsFinite (diffTestJs (.num 0) (.num 1000) (.num 0) (.num 1000)).2.1 = false ∧
    jsIsFinite (diffTestJs (.num 1) (.num 1000) (.num 0) (.num 1000)).2.1 = false :=
  diffTest_degenerate 1000 1000 (by norm_num) (by norm_num)

/-- JS `n | 0` (ToInt32): NaN and ±∞ go to 0; a finite value is truncated
toward zero and reduced into the signed 32-bit range. -/
noncomputable def toInt32 : JsNum → ℤ
  | .nan => 0
  | .inf => 0
  | .neginf => 0
  | .num x =>
    let i : ℤ := if 0 ≤ x then ⌊x⌋ else -⌊-x⌋
    let m : ℤ := i % 4294967296
    if m < 2147483648 then m else m - 4294967296

/-- App.jsx lines 31 and 45: `const N = Math.max(50, n | 0)` — the caller-side
clamp applied in both `runOne` and `runBoth` before `runSession` is invoked. -/
noncomputable def clampTrials (v : JsNum) : ℤ :=
  max 50 (toInt32 v)

/-- C10: for every requested trial count (including non-integer, NaN, and
out-of-range values), the callers clamp it to a minimum of 50 before invoking
the session runner (`runOne`/`runBoth` below call `runSession` with
`(clampTrials v).toNat`), so the runner always receives at least 50 trials,
hence at least 1. -/
theorem trials_clamped_min_50 (v : JsNum) :
    50 ≤ clampTrials v ∧ 1 ≤ clampTrials v ∧
    50 ≤ (clampTrials v).toNat ∧ 1 ≤ (clampTrials v).toNat := by
  have h : (50 : ℤ) ≤ clampTrials v := le_max_left _ _
  refine ⟨h, by omega, ?_, ?_⟩ <;> omega

/-- Claim-relevant component state (App.jsx lines 14–16): the results list,
the comparison line (modelled as the `ComparisonResult` it renders, `none`
for the empty string), and the error banner text.  Display-only fields
(progress fraction, live message, running flag) are omitted. -/
structure AppState where
  results : List SessionResult
  compareLine : Option ComparisonResult
  error : String

/-- App.jsx lines 20–27, `reset()`: clear results, comparison line and error
(the flag write on line 26 is modelled separately by `flagStep`). -/
def resetState (_st : AppState) : AppState :=
  { results := [], compareLine := none, error := "" }

/-- App.jsx lines 29–41, `runOne(kind)`: reset, clamp N, run one session;
store its result on success, store the thrown message on failure. -/
noncomputable def runOne (st : AppState) (kind : String) (v : JsNum)
    (bit : ℕ → ℕ) (cancelled : ℕ → Bool) : AppState :=
  let st1 := resetState st
  match runSession kind ((clampTrials v).toNat) bit cancelled with
  | .error e => { st1 with error := e }
  | .ok res => { st1 with results := [res] }

/-- App.jsx lines 43–63, `runBoth()`: reset, clamp N, run Focus then Control
sequentially; only after BOTH complete are the results list and the
comparison line set; a throw from either session jumps to the catch, which
sets only the error text.  `bitF, cF` and `bitC, cC` are the bit stream and
observed-flag schedule of the Focus and the Control sub-run. -/
noncomputable def runBoth (st : AppState) (v : JsNum) (bitF bitC : ℕ → ℕ)
    (cF cC : ℕ → Bool) : AppState :=
  let st1 := resetState st
  match runSession "Focus" ((clampTrials v).toNat) bitF cF with
  | .error e => { st1 with error := e }
  | .ok focus =>
    match runSession "Control" ((clampTrials v).toNat) bitC cC with
    | .error e => { st1 with error := e }
    | .ok control =>
      { st1 with results := [focus, control],
                 compareLine := some (diffTest focus control) }

/-- C6: for every two-session comparison run, if either the Focus or the
Control sub-run is cancelled (throws), the whole comparison is aborted: the
results list and the comparison line remain unset — no comparison result and
no single-session result is surfaced. -/
theorem runBoth_aborts_on_cancel (st : AppState) (v : JsNum)
    (bitF bitC : ℕ → ℕ) (cF cC : ℕ → Bool)
    (h : (∃ e, runSession "Focus" ((clampTrials v).toNat) bitF cF = .error e) ∨
         (∃ e, runSession "Control" ((clampTrials v).toNat) bitC cC = .error e)) :
    (runBoth st v bitF bitC cF cC).results = [] ∧
    (runBoth st v bitF bitC cF cC).compareLine = none := by
  cases hF : runSession "Focus" ((clampTrials v).toNat) bitF cF with
  | error e =>
    simp only [runBoth, hF]
    exact ⟨rfl, rfl⟩
  | ok focus =>
    cases hC : runSession "Control" ((clampTrials v).toNat) bitC cC with
    | error e =>
      simp only [runBoth, hF, hC]
      exact ⟨rfl, rfl⟩
    | ok control =>
      rcases h with ⟨e, he⟩ | ⟨e, he⟩
      · rw [hF] at he; exact absurd he (by simp)
      · rw [hC] at he; exact absurd he (by simp)

/-- Witness for C6: requested count NaN (clamped to 50), Focus flag already
set, so the Focus sub-run is cancelled at checkpoint 50 and nothing is
surfaced. -/
theorem runBoth_aborts_on_cancel_witness :
    (runBoth ⟨[], none, ""⟩ .nan (fun _ => 0) (fun _ => 0)
        (fun _ => true) (fun _ => false)).results = [] ∧
    (runBoth ⟨[], none, ""⟩ .nan (fun _ => 0) (fun _ => 0)
        (fun _ => true) (fun _ => false)).compareLine = none :=
  runBoth_aborts_on_cancel ⟨[], none, ""⟩ .nan (fun _ => 0) (fun _ => 0)
    (fun _ => true) (fun _ => false) (Or.inl ⟨"Cancelled", rfl⟩)

/-- App.jsx line 26 (inside `reset()`): `cancelRef.current.cancelled = false`. -/
def resetFlag (_f : Bool) : Bool := false

/-- App.jsx line 66 (inside `cancel()`): `cancelRef.current.cancelled = true`. -/
def cancelFlag (_f : Bool) : Bool := true

/-- Events that write the single shared `cancelRef` (App.jsx line 17, created
once per component and never replaced): `runStart` is the `reset()` call at
the top of `runOne`/`runBoth` (lines 30/44); `cancelClick` is the Cancel
button's `cancel()` (line 66). -/
inductive FlagEvent where
  | runStart : FlagEvent
  | cancelClick : FlagEvent
deriving DecidableEq

/-- Effect of one event on the shared flag. -/
def flagStep (f : Bool) : FlagEvent → Bool
  | .runStart => resetFlag f
  | .cancelClick => cancelFlag f

/-- Value of the one shared flag after a sequence of events (initially false,
App.jsx line 17). -/
def flagAfter (evs : List FlagEvent) : Bool :=
  evs.foldl flagStep false

/-- C9 counterexample: the token is NOT fresh per run and a set flag does NOT
remain set for the cancelled run's lifetime.  A run starts and is cancelled
(flag true); then a second run starts — possible while the first run's loop is
still pending, because `cancel()` immediately re-enables the Run buttons —
and its `reset()` writes false into the SAME shared token, so the first run's
cancellation request is erased: the token is reused across runs and
cancelling one run can leave it uncancelled. -/
theorem cancel_flag_reused_counterexample :
    flagAfter [.runStart, .cancelClick] = true ∧
    flagAfter [.runStart, .cancelClick, .runStart] = false := by
  decide

/-- C9 amended: the component owns a SINGLE cancellation flag for its whole
lifetime (created once, never replaced).  Between resets the flag is
monotone: once `cancel()` sets it, it stays true as long as no new run starts
(first conjunct); but every run start resets that same shared flag to false
(second conjunct), so tokens are reused across runs rather than created
fresh per run. -/
theorem cancel_flag_monotone_between_resets (pre evs : List FlagEvent)
    (h : ∀ e ∈ evs, e ≠ FlagEvent.runStart) :
    flagAfter (pre ++ FlagEvent.cancelClick :: evs) = true ∧
    (∀ f : Bool, flagStep f .runStart = false) := by
  constructor
  · unfold flagAfter
    rw [List.foldl_append]
    show evs.foldl flagStep true = true
    induction evs with
    | nil => rfl
    | cons e tl ih =>
      cases e with
      | runStart => exact absurd rfl (h _ (List.mem_cons_self _ _))
      | cancelClick =>
        show tl.foldl flagStep true = true
        exact ih (fun x hx => h x (List.mem_cons_of_mem _ hx))
  · intro f
    rfl

/-- Witness for the amended C9: cancel during a run, then another Cancel
click; the flag stays true, and a run start always clears it. -/
theorem cancel_flag_monotone_between_resets_witness :
    flagAfter ([FlagEvent.runStart] ++ FlagEvent.cancelClick :: [FlagEvent.cancelClick]) = true ∧
    (∀ f : Bool, flagStep f .runStart = false) :=
  cancel_flag_monotone_between_resets [FlagEvent.runStart] [FlagEvent.cancelClick]
    (by decide)
